import Mathlib

/-!
Verification of the crash-game backend core (round engine, fairness
oracle, ledger/wallet, price cache) against its specification.

The JavaScript source is shallowly embedded: JS numbers are modelled as
exact rationals (ℚ), machine words as `Nat` reduced modulo `2 ^ 32`,
fallible operations as `Except`/explicit result values, and the
stateful services as pure state-passing functions.  `crypto.createHash`
from the Node standard library is embedded as a full executable SHA-256
over byte lists, so every hash-dependent statement can be evaluated on
concrete seeds.
-/

/- The Batteries rational-number operations are `@[irreducible]`, which
blocks `decide` from evaluating concrete ℚ expressions; restore their
definitional transparency for this development. -/
unseal Rat.mul Rat.add Rat.sub Rat.inv

set_option maxRecDepth 4000

namespace Sha256

/-- Right rotation of a 32-bit word represented as `Nat < 2 ^ 32`. -/
def rotr (n x : Nat) : Nat :=
  (x / 2 ^ n + (x % 2 ^ n) * 2 ^ (32 - n)) % 2 ^ 32

/-- Logical right shift. -/
def shr (n x : Nat) : Nat := x / 2 ^ n

/-- 32-bit modular addition. -/
def add32 (a b : Nat) : Nat := (a + b) % 2 ^ 32

/-- Bitwise complement on 32 bits. -/
def not32 (x : Nat) : Nat := Nat.xor x 4294967295

def ch (x y z : Nat) : Nat := Nat.xor (Nat.land x y) (Nat.land (not32 x) z)

def maj (x y z : Nat) : Nat :=
  Nat.xor (Nat.xor (Nat.land x y) (Nat.land x z)) (Nat.land y z)

def sigA0 (x : Nat) : Nat := Nat.xor (Nat.xor (rotr 2 x) (rotr 13 x)) (rotr 22 x)

def sigA1 (x : Nat) : Nat := Nat.xor (Nat.xor (rotr 6 x) (rotr 11 x)) (rotr 25 x)

def sigB0 (x : Nat) : Nat := Nat.xor (Nat.xor (rotr 7 x) (rotr 18 x)) (shr 3 x)

def sigB1 (x : Nat) : Nat := Nat.xor (Nat.xor (rotr 17 x) (rotr 19 x)) (shr 10 x)

/-- The 64 SHA-256 round constants (decimal). -/
def K : List Nat :=
  [1116352408, 1899447441, 3049323471, 3921009573, 961987163,
   1508970993, 2453635748, 2870763221, 3624381080, 310598401,
   607225278, 1426881987, 1925078388, 2162078206, 2614888103,
   3248222580, 3835390401, 4022224774, 264347078, 604807628,
   770255983, 1249150122, 1555081692, 1996064986, 2554220882,
   2821834349, 2952996808, 3210313671, 3336571891, 3584528711,
   113926993, 338241895, 666307205, 773529912, 1294757372,
   1396182291, 1695183700, 1986661051, 2177026350, 2456956037,
   2730485921, 2820302411, 3259730800, 3345764771, 3516065817,
   3600352804, 4094571909, 275423344, 430227734, 506948616,
   659060556, 883997877, 958139571, 1322822218, 1537002063,
   1747873779, 1955562222, 2024104815, 2227730452, 2361852424,
   2428436474, 2756734187, 3204031479, 3329325298]

/-- The initial hash state (decimal). -/
def H0 : List Nat :=
  [1779033703, 3144134277, 1013904242, 2773480762, 1359893119,
   2600822924, 528734635, 1541459225]

/-- One step of the message-schedule extension; the list is kept newest
first, so `W[t-2]` is at index 1 and `W[t-16]` at index 15. -/
def wstep (r : List Nat) : List Nat :=
  add32 (add32 (sigB1 (r.getD 1 0)) (r.getD 6 0))
    (add32 (sigB0 (r.getD 14 0)) (r.getD 15 0)) :: r

/-- Expand a 16-word block into the 64-word message schedule. -/
def schedule (block : List Nat) : List Nat :=
  (wstep^[48] block.reverse).reverse

/-- One compression round: state is `[a, b, c, d, e, f, g, h]`. -/
def round1 (st : List Nat) (kw : Nat × Nat) : List Nat :=
  match st with
  | [a, b, c, d, e, f, g, h] =>
    let t1 := add32 h (add32 (sigA1 e) (add32 (ch e f g) (add32 kw.1 kw.2)))
    let t2 := add32 (sigA0 a) (maj a b c)
    [add32 t1 t2, a, b, c, add32 d t1, e, f, g]
  | st => st

/-- Compress one 512-bit block into the running hash state. -/
def compress (h : List Nat) (block : List Nat) : List Nat :=
  let st := (K.zip (schedule block)).foldl round1 h
  h.zipWith add32 st

/-- Big-endian packing of bytes into 32-bit words. -/
def toWords : List Nat → List Nat
  | a :: b :: c :: d :: rest => (((a * 256 + b) * 256 + c) * 256 + d) :: toWords rest
  | _ => []

/-- Split a word list into 16-word blocks; `n` bounds the number of blocks. -/
def toBlocks : Nat → List Nat → List (List Nat)
  | 0, _ => []
  | n + 1, ws => ws.take 16 :: toBlocks n (ws.drop 16)

/-- Big-endian 64-bit encoding of the bit length. -/
def lenBytes (bits : Nat) : List Nat :=
  [bits / 2 ^ 56 % 256, bits / 2 ^ 48 % 256, bits / 2 ^ 40 % 256,
   bits / 2 ^ 32 % 256, bits / 2 ^ 24 % 256, bits / 2 ^ 16 % 256,
   bits / 2 ^ 8 % 256, bits % 256]

/-- SHA-256 padding: append `0x80`, zero fill to 56 mod 64, then the
64-bit big-endian bit length. -/
def pad (msg : List Nat) : List Nat :=
  msg ++ 128 :: List.replicate ((119 - msg.length % 64) % 64) 0
    ++ lenBytes (8 * msg.length)

/-- The eight 32-bit digest words of a byte message. -/
def digestWords (msg : List Nat) : List Nat :=
  let ws := toWords (pad msg)
  (toBlocks (ws.length / 16) ws).foldl compress H0

end Sha256

/-- Hex digit characters, lowercase as produced by `digest('hex')`. -/
def hexDigit (n : Nat) : Char := "0123456789abcdef".data.getD n '0'

/-- Eight-hex-character big-endian rendering of a 32-bit word. -/
def wordHex (w : Nat) : List Char :=
  [hexDigit (w / 16 ^ 7 % 16), hexDigit (w / 16 ^ 6 % 16),
   hexDigit (w / 16 ^ 5 % 16), hexDigit (w / 16 ^ 4 % 16),
   hexDigit (w / 16 ^ 3 % 16), hexDigit (w / 16 ^ 2 % 16),
   hexDigit (w / 16 % 16), hexDigit (w % 16)]

/-- Value of a hex digit character; non-digits map to 0.  Always `< 16`. -/
def hexVal (c : Char) : Nat := (List.indexOf c "0123456789abcdef".data) % 16

/-- Hex string (as a char list) to unsigned integer, as
`parseInt(s, 16)` does on well-formed hex input. -/
def parseHex (l : List Char) : Nat := l.foldl (fun a c => a * 16 + hexVal c) 0

/-- UTF-8 encoding of one character, as `hash.update(string)` uses. -/
def utf8Bytes (c : Char) : List Nat :=
  let n := c.toNat
  if n < 128 then [n]
  else if n < 2048 then [192 + n / 64, 128 + n % 64]
  else if n < 65536 then [224 + n / 4096, 128 + n / 64 % 64, 128 + n % 64]
  else [240 + n / 262144, 128 + n / 4096 % 64, 128 + n / 64 % 64, 128 + n % 64]

/-- UTF-8 byte sequence of a string. -/
def strBytes (s : String) : List Nat := (s.data.map utf8Bytes).flatten

/-- `crypto.createHash('sha256').update(s).digest('hex')`. -/
def sha256hex (s : String) : String :=
  ⟨((Sha256.digestWords (strBytes s)).map wordHex).flatten⟩

example : sha256hex "abc" =
    "ba7816bf8f01cfea414140de5dae2223b00361a396177a9cb410ff61f20015ad" := by decide

example : sha256hex "a1" =
    "f55ff16f66f43360266b95db6f8fec01d76031054306ae4a4b380598f6cfd114" := by decide

namespace CryptoUtils

/-- `Math.round(x * 100) / 100`: rounding to two decimal places, halves
toward positive infinity as `Math.round` does. -/
def jsRound2 (q : ℚ) : ℚ := ((q * 100 + 1 / 2).floor : ℚ) / 100

/-- The executable `Rat.floor` used by `jsRound2` agrees with `⌊·⌋`. -/
theorem jsRound2_eq_intFloor (q : ℚ) : jsRound2 q = (⌊q * 100 + 1 / 2⌋ : ℚ) / 100 := by
  rw [jsRound2, Rat.floor_def, Rat.floor_def']

/-- `parseFloat(process.env.MAX_CRASH_MULTIPLIER) || 120` with the
environment variable unset (the repository's default). -/
def maxCrash : ℚ := 120

/-- `CryptoUtils.generateHash(seed, roundNumber)`: SHA-256 hex digest of
the seed concatenated with the decimal rendering of the round number. -/
def generateHash (seed : String) (roundNumber : Nat) : String :=
  sha256hex (seed ++ toString roundNumber)

/-- `parseInt(hash.substring(0, 8), 16)`: the first 32 digest bits as an
unsigned integer. -/
def hashIntOf (seed : String) (roundNumber : Nat) : Nat :=
  parseHex ((generateHash seed roundNumber).data.take 8)

/-- `const random = hashInt / 0xffffffff`. -/
def randomOf (seed : String) (roundNumber : Nat) : ℚ :=
  (hashIntOf seed roundNumber : ℚ) / 0xffffffff

/-- `1 / (1 - random * 0.99)`. -/
def rawOf (seed : String) (roundNumber : Nat) : ℚ :=
  1 / (1 - randomOf seed roundNumber * (99 / 100))

/-- `CryptoUtils.generateCrashPoint(seed, roundNumber)`:
`Math.round(Math.max(1, Math.min(maxCrash, raw)) * 100) / 100`. -/
def generateCrashPoint (seed : String) (roundNumber : Nat) : ℚ :=
  jsRound2 (max 1 (min maxCrash (rawOf seed roundNumber)))

/-- `CryptoUtils.verifyCrashPoint(seed, roundNumber, crashPoint)`:
`Math.abs(calculated - claimed) < 0.01`. -/
def verifyCrashPoint (seed : String) (roundNumber : Nat) (crashPoint : ℚ) : Bool :=
  decide (|generateCrashPoint seed roundNumber - crashPoint| < 1 / 100)

end CryptoUtils

/-- `clamp(x, lo, hi)` as the specification's step 5 uses it. -/
def clamp (x lo hi : ℚ) : ℚ := max lo (min hi x)

/-- The crash-point derivation exactly as the specification words it:
digest, first 32 bits as `U`, `r = U / 2 ^ 32`, `raw = 1 / (1 − 0.99·r)`,
then `clamp(raw, 1.00, MAX_CRASH)` rounded to two decimal places.
Written from the spec's words to compare against the source's
`generateCrashPoint`. -/
def spec_crash_point (seed : String) (roundNumber : Nat) : ℚ :=
  let U := parseHex ((CryptoUtils.generateHash seed roundNumber).data.take 8)
  let r : ℚ := (U : ℚ) / 2 ^ 32
  let raw : ℚ := 1 / (1 - (99 / 100) * r)
  CryptoUtils.jsRound2 (clamp raw 1 CryptoUtils.maxCrash)

/-- The specification's derivation with step 3 amended to
`r = U / (2 ^ 32 − 1)`, which is what the source's normalisation by
`0xffffffff` computes. -/
def spec_crash_point_amended (seed : String) (roundNumber : Nat) : ℚ :=
  let U := parseHex ((CryptoUtils.generateHash seed roundNumber).data.take 8)
  let r : ℚ := (U : ℚ) / (2 ^ 32 - 1)
  let raw : ℚ := 1 / (1 - (99 / 100) * r)
  CryptoUtils.jsRound2 (clamp raw 1 CryptoUtils.maxCrash)

example : CryptoUtils.generateCrashPoint "a" 1 = 1957 / 100 := by decide

example : CryptoUtils.generateCrashPoint "z14" 1 = 1 := by decide

example : CryptoUtils.generateCrashPoint "s415917" 1 = 187 / 50 := by decide

example : spec_crash_point "s415917" 1 = 373 / 100 := by decide

/-! ### Bounds on the hash-derived 32-bit integer -/

theorem hexVal_lt (c : Char) : hexVal c < 16 :=
  Nat.mod_lt _ (by norm_num)

theorem parseHex_aux_lt (l : List Char) :
    ∀ a : Nat, l.foldl (fun a c => a * 16 + hexVal c) a < (a + 1) * 16 ^ l.length := by
  induction l with
  | nil =>
    intro a
    simp only [List.foldl_nil, List.length_nil, pow_zero, mul_one]
    exact Nat.lt_succ_self a
  | cons c l ih =>
    intro a
    calc (c :: l).foldl (fun a c => a * 16 + hexVal c) a
        = l.foldl (fun a c => a * 16 + hexVal c) (a * 16 + hexVal c) := rfl
      _ < (a * 16 + hexVal c + 1) * 16 ^ l.length := ih _
      _ ≤ (a + 1) * 16 ^ (c :: l).length := by
          have h16 : a * 16 + hexVal c + 1 ≤ (a + 1) * 16 := by
            have := hexVal_lt c; omega
          calc (a * 16 + hexVal c + 1) * 16 ^ l.length
              ≤ (a + 1) * 16 * 16 ^ l.length := Nat.mul_le_mul_right _ h16
            _ = (a + 1) * 16 ^ (c :: l).length := by
                rw [List.length_cons, pow_succ]; ring

theorem parseHex_lt (l : List Char) : parseHex l < 16 ^ l.length := by
  have := parseHex_aux_lt l 0
  simpa using this

theorem hashIntOf_le (seed : String) (n : Nat) :
    CryptoUtils.hashIntOf seed n ≤ 4294967295 := by
  have h := parseHex_lt ((CryptoUtils.generateHash seed n).data.take 8)
  have hlen : ((CryptoUtils.generateHash seed n).data.take 8).length ≤ 8 := by
    simp [List.length_take]
  have : (16 : Nat) ^ ((CryptoUtils.generateHash seed n).data.take 8).length ≤ 16 ^ 8 :=
    Nat.pow_le_pow_right (by norm_num) hlen
  have := Nat.lt_of_lt_of_le h this
  unfold CryptoUtils.hashIntOf
  omega

theorem randomOf_nonneg (seed : String) (n : Nat) : 0 ≤ CryptoUtils.randomOf seed n := by
  unfold CryptoUtils.randomOf
  positivity

theorem randomOf_le_one (seed : String) (n : Nat) : CryptoUtils.randomOf seed n ≤ 1 := by
  unfold CryptoUtils.randomOf
  rw [div_le_one (by norm_num)]
  exact_mod_cast hashIntOf_le seed n

theorem rawOf_ge_one (seed : String) (n : Nat) : 1 ≤ CryptoUtils.rawOf seed n := by
  have h0 := randomOf_nonneg seed n
  have h1 := randomOf_le_one seed n
  unfold CryptoUtils.rawOf
  rw [le_one_div (by norm_num) (by nlinarith)]
  nlinarith

theorem rawOf_le_100 (seed : String) (n : Nat) : CryptoUtils.rawOf seed n ≤ 100 := by
  have h0 := randomOf_nonneg seed n
  have h1 := randomOf_le_one seed n
  unfold CryptoUtils.rawOf
  rw [div_le_iff₀ (by nlinarith)]
  nlinarith

/-! ### Claims C1, C9, C7: the fairness oracle -/

/-- C1, counterexample: at seed "s415917", round 1 (first digest word
`0xbd5a4a59`), the source's crash point is 3.74 but the specification's
procedure — which normalises by `2 ^ 32` where the source divides by
`0xffffffff = 2 ^ 32 − 1` — yields 3.73. -/
theorem c1_crash_point_spec_counterexample :
    CryptoUtils.generateCrashPoint "s415917" 1 = 187 / 50 ∧
    spec_crash_point "s415917" 1 = 373 / 100 ∧
    CryptoUtils.generateCrashPoint "s415917" 1 ≠ spec_crash_point "s415917" 1 :=
  ⟨by decide, by decide, by decide⟩

/-- C1, amended: for every seed and round number, the crash-point
derivation returns exactly the value of the specification's procedure
with step 3 amended to `r = U / (2 ^ 32 − 1)`. -/
theorem c1_crash_point_follows_amended_spec (seed : String) (n : Nat) :
    CryptoUtils.generateCrashPoint seed n = spec_crash_point_amended seed n := by
  unfold CryptoUtils.generateCrashPoint spec_crash_point_amended clamp
    CryptoUtils.rawOf CryptoUtils.randomOf CryptoUtils.hashIntOf
  norm_num [mul_comm]

/-- C9: the derived crash point never exceeds 100.00, and under the
default `MAX_CRASH = 120` the upper clamp of `Math.min` is never the
binding bound. -/
theorem c9_crash_point_le_hundred (seed : String) (n : Nat) :
    CryptoUtils.generateCrashPoint seed n ≤ 100 ∧
    min CryptoUtils.maxCrash (CryptoUtils.rawOf seed n) = CryptoUtils.rawOf seed n := by
  have h1 := rawOf_ge_one seed n
  have h100 := rawOf_le_100 seed n
  have hmin : min CryptoUtils.maxCrash (CryptoUtils.rawOf seed n) = CryptoUtils.rawOf seed n :=
    min_eq_right (le_trans h100 (by norm_num [CryptoUtils.maxCrash]))
  refine ⟨?_, hmin⟩
  unfold CryptoUtils.generateCrashPoint
  rw [hmin, max_eq_right h1, CryptoUtils.jsRound2_eq_intFloor]
  rw [div_le_iff₀ (by norm_num)]
  have hx : CryptoUtils.rawOf seed n * 100 + 1 / 2 < 10001 := by linarith
  have hfl : ⌊CryptoUtils.rawOf seed n * 100 + 1 / 2⌋ < 10001 := by
    rw [Int.floor_lt]; exact_mod_cast hx
  have hq : (⌊CryptoUtils.rawOf seed n * 100 + 1 / 2⌋ : ℚ) ≤ 10000 := by
    exact_mod_cast Int.lt_add_one_iff.mp hfl
  linarith

/-- C7: the verifier accepts a claimed crash value exactly when it is
within 0.01 of the recomputed one; in particular it accepts the true
crash point, and rejects any claim at least 0.01 away. -/
theorem c7_verify_roundtrip :
    (∀ seed n c, CryptoUtils.verifyCrashPoint seed n c = true ↔
      |CryptoUtils.generateCrashPoint seed n - c| < 1 / 100) ∧
    (∀ seed n, CryptoUtils.verifyCrashPoint seed n (CryptoUtils.generateCrashPoint seed n) = true) ∧
    (∀ seed n c, (1 : ℚ) / 100 ≤ |CryptoUtils.generateCrashPoint seed n - c| →
      CryptoUtils.verifyCrashPoint seed n c = false) := by
  refine ⟨fun seed n c => by simp [CryptoUtils.verifyCrashPoint],
    fun seed n => by simp [CryptoUtils.verifyCrashPoint],
    fun seed n c h => ?_⟩
  simp only [CryptoUtils.verifyCrashPoint, decide_eq_false_iff_not, not_lt]
  exact h

/-- C7 witness: the verifier accepts the recomputed crash point of seed
"a" at round 1, and rejects the crash point derived from the
single-bit-flipped seed "e" (0x61 xor 0x65 = 0x04), which differs by
far more than 0.01 (19.57 against 2.17). -/
theorem c7_verify_roundtrip_witness :
    CryptoUtils.verifyCrashPoint "a" 1 (CryptoUtils.generateCrashPoint "a" 1) = true ∧
    (1 : ℚ) / 100 ≤ |CryptoUtils.generateCrashPoint "a" 1 - CryptoUtils.generateCrashPoint "e" 1| ∧
    CryptoUtils.verifyCrashPoint "a" 1 (CryptoUtils.generateCrashPoint "e" 1) = false :=
  ⟨c7_verify_roundtrip.2.1 "a" 1, by decide,
    c7_verify_roundtrip.2.2 "a" 1 _ (by decide)⟩

/-! ### Claim C10: the multiplier growth computation -/

/-- The crash point as a function of the 32-bit integer extracted from
the digest: `generateCrashPoint` factors through it. -/
def crashPointOfU (u : Nat) : ℚ :=
  CryptoUtils.jsRound2
    (max 1 (min CryptoUtils.maxCrash (1 / (1 - (u : ℚ) / 4294967295 * (99 / 100)))))

theorem generateCrashPoint_eq_crashPointOfU (seed : String) (n : Nat) :
    CryptoUtils.generateCrashPoint seed n = crashPointOfU (CryptoUtils.hashIntOf seed n) :=
  rfl

/-- `const targetTime = Math.log(crashPoint) * 2` in `updateMultiplier`. -/
noncomputable def targetTime (crashPoint : ℝ) : ℝ := Real.log crashPoint * 2

/-- `const growthFactor = (crashPoint - 1) / targetTime`. -/
noncomputable def growthFactor (crashPoint : ℝ) : ℝ :=
  (crashPoint - 1) / targetTime crashPoint

/-- `this.currentMultiplier = 1 + (elapsed * growthFactor)`. -/
noncomputable def multiplierAt (crashPoint elapsed : ℝ) : ℝ :=
  1 + elapsed * growthFactor crashPoint

/-- C10: the divisor `targetTime = 2·ln(crash_point)` vanishes exactly at
crash_point = 1.00; that value is produced by the derivation (when the
first 32 digest bits are zero, and concretely at seed "z14", round 1);
for crash_point > 1.00 the growth factor is strictly positive and the
crash branch `multiplier ≥ crash_point` is reached once the elapsed time
reaches `targetTime`. -/
theorem c10_multiplier_growth_safety :
    (∀ c : ℝ, 1 ≤ c → (targetTime c = 0 ↔ c = 1)) ∧
    crashPointOfU 0 = 1 ∧
    CryptoUtils.generateCrashPoint "z14" 1 = 1 ∧
    (∀ c : ℝ, 1 < c → 0 < growthFactor c) ∧
    (∀ c : ℝ, 1 < c → ∀ t : ℝ, targetTime c ≤ t → c ≤ multiplierAt c t) := by
  have hgf : ∀ c : ℝ, 1 < c → 0 < growthFactor c := by
    intro c hc
    have hlog := Real.log_pos hc
    have : (0 : ℝ) < c - 1 := by linarith
    unfold growthFactor targetTime
    positivity
  refine ⟨?_, by decide, by decide, hgf, ?_⟩
  · intro c hc
    constructor
    · intro h
      rcases mul_eq_zero.mp h with h' | h'
      · rcases Real.log_eq_zero.mp h' with h0 | h1 | hm1 <;> linarith
      · norm_num at h'
    · intro h
      simp [targetTime, h]
  · intro c hc t ht
    have hlog := Real.log_pos hc
    have hT : 0 < targetTime c := by unfold targetTime; linarith
    have hg := hgf c hc
    have h1 : targetTime c * growthFactor c = c - 1 := by
      unfold growthFactor
      field_simp
    have h2 : targetTime c * growthFactor c ≤ t * growthFactor c :=
      mul_le_mul_of_nonneg_right ht (le_of_lt hg)
    unfold multiplierAt
    nlinarith

/-- C10 witness: at crash point 2 the growth factor is positive, the
target time is nonzero, and the multiplier reaches the crash point at
elapsed time `targetTime 2`. -/
theorem c10_multiplier_growth_safety_witness :
    ((1 : ℝ) ≤ 2 ∧ (targetTime 2 = 0 ↔ (2 : ℝ) = 1)) ∧
    ((1 : ℝ) < 2 ∧ 0 < growthFactor 2) ∧
    (2 : ℝ) ≤ multiplierAt 2 (targetTime 2) :=
  ⟨⟨by norm_num, c10_multiplier_growth_safety.1 2 (by norm_num)⟩,
    ⟨by norm_num, c10_multiplier_growth_safety.2.2.2.1 2 (by norm_num)⟩,
    c10_multiplier_growth_safety.2.2.2.2 2 (by norm_num) _ le_rfl⟩

/-! ### Shared data model: players, wallets, transactions

Mirrors the mongoose schemas (`Player.js`, `Transaction.js`).  The
random `transactionId`/`transactionHash` strings carry no information
relevant to any claim and are omitted from the `Transaction` record. -/

/-- The two supported cryptocurrencies (`enum: ['bitcoin', 'ethereum']`). -/
inductive Crypto
  | bitcoin
  | ethereum
deriving DecidableEq, Repr

/-- The string tag of a supported cryptocurrency. -/
def Crypto.name : Crypto → String
  | .bitcoin => "bitcoin"
  | .ethereum => "ethereum"

/-- `walletSchema`: one balance per supported asset. -/
structure Wallet where
  bitcoin : ℚ
  ethereum : ℚ
deriving DecidableEq, Repr

def Wallet.get (w : Wallet) : Crypto → ℚ
  | .bitcoin => w.bitcoin
  | .ethereum => w.ethereum

def Wallet.set (w : Wallet) : Crypto → ℚ → Wallet
  | .bitcoin, v => { w with bitcoin := v }
  | .ethereum, v => { w with ethereum := v }

/-- `playerSchema`. -/
structure Player where
  playerId : String
  username : String
  wallet : Wallet
  totalBets : Nat
  totalWins : Nat
  totalLosses : Nat
  isActive : Bool
deriving DecidableEq, Repr

/-- `transactionSchema`'s `transactionType` enumeration. -/
inductive TxType
  | bet
  | cashout
  | deposit
  | withdrawal
deriving DecidableEq, Repr

/-- `transactionSchema` (ids and hashes omitted, see above). -/
structure Transaction where
  playerId : String
  roundId : String
  transactionType : TxType
  usdAmount : ℚ
  cryptoAmount : ℚ
  cryptocurrency : Crypto
  priceAtTime : ℚ
  multiplier : Option ℚ
deriving DecidableEq, Repr

/-- Keyed record store (the document collections and the JS `Map`):
lookup by key. -/
def alistGet {α : Type} (m : List (String × α)) (k : String) : Option α :=
  ((m.find? fun p => p.1 = k).map Prod.snd)

/-- Keyed record store: write by key (replace or append). -/
def alistSet {α : Type} : List (String × α) → String → α → List (String × α)
  | [], k, v => [(k, v)]
  | (k', v') :: rest, k, v =>
    if k' = k then (k, v) :: rest else (k', v') :: alistSet rest k v

theorem alistGet_alistSet_self {α : Type} (m : List (String × α)) (k : String) (v : α) :
    alistGet (alistSet m k v) k = some v := by
  induction m with
  | nil => simp [alistGet, alistSet]
  | cons p rest ih =>
    by_cases h : p.1 = k
    · simp [alistGet, alistSet, h, List.find?]
    · simp only [alistSet]
      rw [if_neg h]
      simpa [alistGet, List.find?, h] using ih

theorem alistGet_alistSet_ne {α : Type} (m : List (String × α)) (k k' : String) (v : α)
    (h : k' ≠ k) : alistGet (alistSet m k v) k' = alistGet m k' := by
  have hk : ¬k = k' := fun hh => h hh.symm
  induction m with
  | nil => simp [alistGet, alistSet, List.find?, hk]
  | cons p rest ih =>
    by_cases hp : p.1 = k
    · subst hp
      simp [alistGet, alistSet, List.find?, hk, h]
    · simp only [alistSet]
      rw [if_neg hp]
      by_cases hk' : p.1 = k'
      · simp [alistGet, List.find?, hk']
      · simpa [alistGet, List.find?, hk'] using ih

/-! ### The price oracle cache (`CryptoService`) -/

namespace CryptoService

/-- One cache entry: `{ price, timestamp, lastUpdated }`. -/
structure CacheEntry where
  price : ℚ
  timestamp : ℤ
  lastUpdated : ℤ
deriving DecidableEq, Repr

/-- The service state: the `Map` cache and
`parseInt(process.env.CACHE_DURATION) || 10000`. -/
structure State where
  cache : List (String × CacheEntry)
  cacheDuration : ℤ
deriving DecidableEq, Repr

/-- A freshly constructed `CryptoService` (empty cache, default TTL). -/
def initState : State := { cache := [], cacheDuration := 10000 }

/-- Result of `getCurrentPrice`: the returned price, the updated service
state, and whether an upstream request was issued.  The JS function
always returns a price — every throw inside the `try` block is caught
and the catch block itself returns. -/
structure PriceResult where
  price : ℚ
  state : State
  requested : Bool
deriving DecidableEq, Repr

/-- The hard-coded `fallbackPrices` object; absent keys give `undefined`. -/
def fallbackPrices (crypto : String) : Option ℚ :=
  if crypto = "bitcoin" then some 67000
  else if crypto = "ethereum" then some 3500
  else none

/-- `CryptoService.getCurrentPrice(cryptocurrency)`.  The upstream call
is an oracle input: `some (price, lastUpdatedSecs)` for a successful
fetch, `none` for any failure (network error, timeout, or the response
missing the asset — as happens for an unsupported tag). -/
def getCurrentPrice (st : State) (now : ℤ) (fetch : Option (ℚ × ℤ))
    (crypto : String) : PriceResult :=
  let cacheKey := "price_" ++ crypto
  let fetchPath : PriceResult :=
    match fetch with
    | some pr =>
      ⟨pr.1, { st with cache := alistSet st.cache cacheKey ⟨pr.1, now, pr.2 * 1000⟩ }, true⟩
    | none =>
      match alistGet st.cache cacheKey with
      | some c => ⟨c.price, st, true⟩
      | none => ⟨(fallbackPrices crypto).getD 1, st, true⟩
  match alistGet st.cache cacheKey with
  | some c =>
    if now - c.timestamp < st.cacheDuration then ⟨c.price, st, false⟩ else fetchPath
  | none => fetchPath

end CryptoService

/-! ### Claim C4: price cache semantics -/

/-- C4, counterexample: for the unsupported asset tag "dogecoin" with an
empty cache and a failed upstream fetch, the operation does not fail —
it returns the price 1 (`fallbackPrices[cryptocurrency] || 1`), leaving
the state unchanged, although no hard-coded fallback exists for that
asset. -/
theorem c4_price_fails_counterexample :
    (CryptoService.getCurrentPrice CryptoService.initState 0 none "dogecoin").price = 1 ∧
    (CryptoService.getCurrentPrice CryptoService.initState 0 none "dogecoin").state =
      CryptoService.initState ∧
    CryptoService.fallbackPrices "dogecoin" = none :=
  ⟨by decide, by decide, by decide⟩

/-- C4, amended: a fresh cache entry is served with no upstream request;
otherwise an upstream fetch is attempted — on success the fresh value is
cached and returned, on failure the cached value is returned regardless
of age, and with no cache entry the hard-coded fallback (67000 for
bitcoin, 3500 for ethereum) or 1 for any other tag is returned; the
operation never fails, even for an unsupported asset tag. -/
theorem c4_price_cache_semantics :
    (∀ st now fetch crypto e, alistGet st.cache ("price_" ++ crypto) = some e →
      now - e.timestamp < st.cacheDuration →
      CryptoService.getCurrentPrice st now fetch crypto = ⟨e.price, st, false⟩) ∧
    (∀ (st : CryptoService.State) now p lu crypto,
      (∀ e, alistGet st.cache ("price_" ++ crypto) = some e →
        ¬(now - e.timestamp < st.cacheDuration)) →
      CryptoService.getCurrentPrice st now (some (p, lu)) crypto =
        ⟨p, { st with cache := alistSet st.cache ("price_" ++ crypto) ⟨p, now, lu * 1000⟩ },
          true⟩) ∧
    (∀ st now crypto e, alistGet st.cache ("price_" ++ crypto) = some e →
      ¬(now - e.timestamp < st.cacheDuration) →
      CryptoService.getCurrentPrice st now none crypto = ⟨e.price, st, true⟩) ∧
    (∀ st now crypto, alistGet st.cache ("price_" ++ crypto) = none →
      CryptoService.getCurrentPrice st now none crypto =
        ⟨(CryptoService.fallbackPrices crypto).getD 1, st, true⟩) := by
  refine ⟨?_, ?_, ?_, ?_⟩
  · intro st now fetch crypto e he hfresh
    simp [CryptoService.getCurrentPrice, he, hfresh]
  · intro st now p lu crypto hstale
    unfold CryptoService.getCurrentPrice
    cases he : alistGet st.cache ("price_" ++ crypto) with
    | none => simp [he]
    | some e => simp [he, hstale e he]
  · intro st now crypto e he hstale
    simp [CryptoService.getCurrentPrice, he, hstale]
  · intro st now crypto he
    simp [CryptoService.getCurrentPrice, he]

/-- C4 witness: concrete instantiations of each branch — a fresh
bitcoin entry served from cache without a request; a stale entry
refreshed by a successful fetch; a stale entry served on fetch failure;
and the 67000 bitcoin fallback on an empty cache with fetch failure. -/
theorem c4_price_cache_semantics_witness :
    (CryptoService.getCurrentPrice ⟨[("price_bitcoin", ⟨60000, 0, 0⟩)], 10000⟩ 5000
        (some (61000, 7)) "bitcoin" = ⟨60000, ⟨[("price_bitcoin", ⟨60000, 0, 0⟩)], 10000⟩, false⟩) ∧
    (CryptoService.getCurrentPrice ⟨[("price_bitcoin", ⟨60000, 0, 0⟩)], 10000⟩ 20000
        (some (61000, 7)) "bitcoin" =
      ⟨61000, ⟨[("price_bitcoin", ⟨61000, 20000, 7000⟩)], 10000⟩, true⟩) ∧
    (CryptoService.getCurrentPrice ⟨[("price_bitcoin", ⟨60000, 0, 0⟩)], 10000⟩ 20000
        none "bitcoin" = ⟨60000, ⟨[("price_bitcoin", ⟨60000, 0, 0⟩)], 10000⟩, true⟩) ∧
    (CryptoService.getCurrentPrice CryptoService.initState 0 none "bitcoin" =
      ⟨67000, CryptoService.initState, true⟩) :=
  ⟨c4_price_cache_semantics.1 _ 5000 _ "bitcoin" ⟨60000, 0, 0⟩ (by decide) (by decide),
    c4_price_cache_semantics.2.1 _ 20000 61000 7 "bitcoin"
      (fun e he => by
        have : e = (⟨60000, 0, 0⟩ : CryptoService.CacheEntry) := by
          have h := he
          simp [alistGet, List.find?] at h
          exact h.symm
        subst this
        decide),
    c4_price_cache_semantics.2.2.1 _ 20000 "bitcoin" ⟨60000, 0, 0⟩ (by decide) (by decide),
    c4_price_cache_semantics.2.2.2 _ 0 "bitcoin" (by decide)⟩

/-! ### The wallet service (`WalletService.transferCrypto`) -/

namespace WalletService

/-- The string tag of a supported asset resolved to the wallet field;
only reached after the `['bitcoin', 'ethereum'].includes` guard. -/
def toCrypto (s : String) : Crypto :=
  if s = "bitcoin" then .bitcoin else .ethereum

instance {ε α : Type} [DecidableEq ε] [DecidableEq α] : DecidableEq (Except ε α) := fun
  | .ok a, .ok b =>
    if h : a = b then isTrue (by rw [h]) else isFalse (by simp [h])
  | .ok _, .error _ => isFalse (by simp)
  | .error _, .ok _ => isFalse (by simp)
  | .error a, .error b =>
    if h : a = b then isTrue (by rw [h]) else isFalse (by simp [h])

/-- Result of `transferCrypto`: the reported outcome, the persisted
player records, and the appended transaction log. -/
structure TransferOutcome where
  result : Except String Unit
  db : List (String × Player)
  txs : List Transaction
deriving DecidableEq

/-- `WalletService.transferCrypto(fromPlayerId, toPlayerId, amount,
cryptocurrency)`.  Persistence is explicit: each `save()` of a player
record either commits that record or rejects; the oracles `saveFromOk`,
`saveToOk` and `txSavesOk` say which acknowledgement the store gives.
A rejected save throws, so execution stops there with every previously
committed write still in place — the source runs the two balance writes
sequentially with no enclosing store transaction.  The price used for
the transaction records is resolved through the price oracle, which
never fails. -/
def transferCrypto (db : List (String × Player)) (txs : List Transaction)
    (saveFromOk saveToOk txSavesOk : Bool)
    (cs : CryptoService.State) (now : ℤ) (fetch : Option (ℚ × ℤ))
    (fromPlayerId toPlayerId : String) (amount : ℚ) (cryptocurrency : String) :
    TransferOutcome :=
  if amount ≤ 0 then ⟨.error "Transfer amount must be positive", db, txs⟩
  else if ¬(cryptocurrency = "bitcoin" ∨ cryptocurrency = "ethereum") then
    ⟨.error "Unsupported cryptocurrency", db, txs⟩
  else if fromPlayerId = toPlayerId then
    ⟨.error "Cannot transfer to the same player", db, txs⟩
  else
    match alistGet db fromPlayerId, alistGet db toPlayerId with
    | none, _ => ⟨.error "Sender player not found", db, txs⟩
    | some _, none => ⟨.error "Receiver player not found", db, txs⟩
    | some fromPlayer, some toPlayer =>
      let c := toCrypto cryptocurrency
      if fromPlayer.wallet.get c < amount then ⟨.error "Insufficient balance", db, txs⟩
      else
        let fromPlayer' :=
          { fromPlayer with wallet := fromPlayer.wallet.set c (fromPlayer.wallet.get c - amount) }
        let toPlayer' :=
          { toPlayer with wallet := toPlayer.wallet.set c (toPlayer.wallet.get c + amount) }
        if ¬saveFromOk then ⟨.error "save failed", db, txs⟩
        else
          let db1 := alistSet db fromPlayerId fromPlayer'
          if ¬saveToOk then ⟨.error "save failed", db1, txs⟩
          else
            let db2 := alistSet db1 toPlayerId toPlayer'
            let price := (CryptoService.getCurrentPrice cs now fetch cryptocurrency).price
            let usdValue := amount * price
            if ¬txSavesOk then ⟨.error "save failed", db2, txs⟩
            else
              ⟨.ok (),
                db2,
                txs ++
                  [⟨fromPlayerId, "transfer", .withdrawal, usdValue, amount, c, price, none⟩,
                   ⟨toPlayerId, "transfer", .deposit, usdValue, amount, c, price, none⟩]⟩

end WalletService

/-! ### Claim C3: ledger transfer atomicity -/

theorem wallet_get_set_self (w : Wallet) (c : Crypto) (v : ℚ) :
    (w.set c v).get c = v := by
  cases c <;> simp [Wallet.get, Wallet.set]

/-- Concrete transfer in which the write of the destination record is
rejected after the source record was already written. -/
def c3FailedCreditOutcome : WalletService.TransferOutcome :=
  WalletService.transferCrypto
    [("alice", ⟨"alice", "alice", ⟨5, 0⟩, 0, 0, 0, true⟩),
     ("bob", ⟨"bob", "bob", ⟨1, 0⟩, 0, 0, 0, true⟩)] []
    true false true CryptoService.initState 0 none "alice" "bob" 2 "bitcoin"

/-- C3, counterexample: transferring 2 bitcoin from alice (balance 5) to
bob (balance 1) with the destination write failing reports an error, yet
alice's persisted balance has dropped to 3 while bob's is still 1 — the
failure is not all-or-nothing. -/
theorem c3_transfer_atomicity_counterexample :
    c3FailedCreditOutcome.result = Except.error "save failed" ∧
    (alistGet c3FailedCreditOutcome.db "alice").map (fun p => p.wallet.bitcoin) = some 3 ∧
    (alistGet c3FailedCreditOutcome.db "bob").map (fun p => p.wallet.bitcoin) = some 1 :=
  ⟨by decide, by decide, by decide⟩

/-- C3, amended: a transfer with source balance below the amount fails
with no balance changed; a rejected write of the source record also
leaves both balances unchanged; when both balance writes are
acknowledged the source is debited and the destination credited by
exactly the amount; but when the destination write is rejected after
the source write committed, the call fails with the debit persisted and
no matching credit — the operation is not all-or-nothing. -/
theorem c3_transfer_semantics (db : List (String × Player)) (txs : List Transaction)
    (txOk : Bool) (cs : CryptoService.State) (now : ℤ) (fetch : Option (ℚ × ℤ))
    (fromId toId : String) (amount : ℚ) (cname : String) (f t : Player)
    (hamt : ¬amount ≤ 0) (hsupp : cname = "bitcoin" ∨ cname = "ethereum")
    (hne : fromId ≠ toId)
    (hf : alistGet db fromId = some f) (ht : alistGet db toId = some t) :
    (f.wallet.get (WalletService.toCrypto cname) < amount →
      ∀ sF sT : Bool,
        WalletService.transferCrypto db txs sF sT txOk cs now fetch fromId toId amount cname =
          ⟨.error "Insufficient balance", db, txs⟩) ∧
    (¬f.wallet.get (WalletService.toCrypto cname) < amount →
      (∀ sT : Bool,
        WalletService.transferCrypto db txs false sT txOk cs now fetch fromId toId amount cname =
          ⟨.error "save failed", db, txs⟩) ∧
      ((WalletService.transferCrypto db txs true true true cs now fetch
          fromId toId amount cname).result = .ok () ∧
        (alistGet (WalletService.transferCrypto db txs true true true cs now fetch
            fromId toId amount cname).db fromId).map
            (fun p => p.wallet.get (WalletService.toCrypto cname)) =
          some (f.wallet.get (WalletService.toCrypto cname) - amount) ∧
        (alistGet (WalletService.transferCrypto db txs true true true cs now fetch
            fromId toId amount cname).db toId).map
            (fun p => p.wallet.get (WalletService.toCrypto cname)) =
          some (t.wallet.get (WalletService.toCrypto cname) + amount)) ∧
      ((WalletService.transferCrypto db txs true false txOk cs now fetch
          fromId toId amount cname).result = .error "save failed" ∧
        (alistGet (WalletService.transferCrypto db txs true false txOk cs now fetch
            fromId toId amount cname).db fromId).map
            (fun p => p.wallet.get (WalletService.toCrypto cname)) =
          some (f.wallet.get (WalletService.toCrypto cname) - amount) ∧
        (alistGet (WalletService.transferCrypto db txs true false txOk cs now fetch
            fromId toId amount cname).db toId) = some t)) := by
  have hsupp' : ¬¬(cname = "bitcoin" ∨ cname = "ethereum") := not_not_intro hsupp
  have hne' : toId ≠ fromId := Ne.symm hne
  constructor
  · intro hbal sF sT
    simp [WalletService.transferCrypto, hamt, hsupp', hne, hf, ht, hbal]
  · intro hbal
    refine ⟨?_, ⟨?_, ?_, ?_⟩, ?_, ?_, ?_⟩ <;>
      simp [WalletService.transferCrypto, hamt, hsupp', hne, hne', hf, ht, hbal,
        alistGet_alistSet_self, alistGet_alistSet_ne, wallet_get_set_self]

def c3Alice : Player := ⟨"alice", "alice", ⟨5, 0⟩, 0, 0, 0, true⟩

def c3Bob : Player := ⟨"bob", "bob", ⟨1, 0⟩, 0, 0, 0, true⟩

def c3Db : List (String × Player) := [("alice", c3Alice), ("bob", c3Bob)]

/-- C3 witness: with alice at 5 bitcoin and bob at 1 — a transfer of 10
is rejected for insufficient balance with no change; a transfer of 2
with all writes acknowledged debits alice to 3 and credits bob to 3;
and a transfer of 2 whose destination write is rejected reports failure
with alice already debited to 3 and bob's record untouched. -/
theorem c3_transfer_semantics_witness :
    (WalletService.transferCrypto c3Db [] true true true CryptoService.initState 0 none
        "alice" "bob" 10 "bitcoin" = ⟨.error "Insufficient balance", c3Db, []⟩) ∧
    ((WalletService.transferCrypto c3Db [] true true true CryptoService.initState 0 none
        "alice" "bob" 2 "bitcoin").result = .ok () ∧
      (alistGet (WalletService.transferCrypto c3Db [] true true true CryptoService.initState 0
          none "alice" "bob" 2 "bitcoin").db "alice").map
          (fun p => p.wallet.get (WalletService.toCrypto "bitcoin")) = some 3 ∧
      (alistGet (WalletService.transferCrypto c3Db [] true true true CryptoService.initState 0
          none "alice" "bob" 2 "bitcoin").db "bob").map
          (fun p => p.wallet.get (WalletService.toCrypto "bitcoin")) = some 3) ∧
    ((WalletService.transferCrypto c3Db [] true false true CryptoService.initState 0 none
        "alice" "bob" 2 "bitcoin").result = .error "save failed" ∧
      (alistGet (WalletService.transferCrypto c3Db [] true false true CryptoService.initState 0
          none "alice" "bob" 2 "bitcoin").db "alice").map
          (fun p => p.wallet.get (WalletService.toCrypto "bitcoin")) = some 3 ∧
      (alistGet (WalletService.transferCrypto c3Db [] true false true CryptoService.initState 0
          none "alice" "bob" 2 "bitcoin").db "bob") = some c3Bob) := by
  have H10 := c3_transfer_semantics c3Db [] true CryptoService.initState 0 none
    "alice" "bob" 10 "bitcoin" c3Alice c3Bob (by decide) (by decide) (by decide)
    (by decide) (by decide)
  have H2 := (c3_transfer_semantics c3Db [] true CryptoService.initState 0 none
    "alice" "bob" 2 "bitcoin" c3Alice c3Bob (by decide) (by decide) (by decide)
    (by decide) (by decide)).2 (by decide)
  exact ⟨H10.1 (by decide) true true, H2.2.1, H2.2.2⟩

/-! ### The round engine (`GameService`) -/

namespace GameService

/-- `gameRoundSchema.status`. -/
inductive RoundStatus
  | waiting
  | active
  | crashed
  | completed
deriving DecidableEq, Repr

/-- `betSchema`. -/
structure Bet where
  playerId : String
  usdAmount : ℚ
  cryptoAmount : ℚ
  cryptocurrency : Crypto
  priceAtTime : ℚ
  cashedOut : Bool
  cashoutMultiplier : Option ℚ
  cashoutAmount : Option ℚ
deriving DecidableEq, Repr

/-- `gameRoundSchema`.  `roundNum` records the `roundCounter` value the
round was created with (the counter is embedded in `roundId` as its
final `_`-separated component and determines `hash` and `crashPoint`). -/
structure GameRound where
  roundId : String
  roundNum : Nat
  seed : String
  hash : String
  crashPoint : ℚ
  status : RoundStatus
  bets : List Bet
  maxMultiplier : ℚ
deriving DecidableEq, Repr

/-- The events handed to `webSocketService.broadcast`. -/
inductive Event
  | roundStarted (roundId hash : String)
  | multiplierUpdate (roundId : String) (multiplier : ℚ)
  | betPlaced (roundId playerId : String) (usdAmount cryptoAmount : ℚ) (c : Crypto)
  | playerCashedOut (roundId playerId : String) (multiplier amount : ℚ) (c : Crypto)
  | gameCrashed (roundId : String) (crashPoint : ℚ) (seed : String)
deriving DecidableEq, Repr

/-- The `GameService` instance state plus the stores it writes: the
players collection, the persisted rounds, the transaction log, and the
stream of broadcast events. -/
structure GameState where
  currentRound : Option GameRound
  roundCounter : Nat
  currentMultiplier : ℚ
  isGameActive : Bool
  players : List (String × Player)
  savedRounds : List GameRound
  transactions : List Transaction
  events : List Event
deriving DecidableEq, Repr

/-- In-memory mutation of `this.currentRound`. -/
def withRound (s : GameState) (r : GameRound) : GameState :=
  { s with currentRound := some r }

/-- Upsert into the persisted round collection (keyed by `roundId`). -/
def upsertRound : List GameRound → GameRound → List GameRound
  | [], r => [r]
  | r' :: rest, r => if r'.roundId = r.roundId then r :: rest else r' :: upsertRound rest r

/-- `this.currentRound.save()`. -/
def saveRound (s : GameState) : GameState :=
  match s.currentRound with
  | none => s
  | some r => { s with savedRounds := upsertRound s.savedRounds r }

/-- `GameService.startNewRound()`: ends an active round, increments the
counter, derives seed-committed crash point and hash, persists the new
`waiting` round and broadcasts `round_started`.  The fresh seed and the
`Date.now()` component of the round id are inputs. -/
def startNewRound (s : GameState) (seed nowStr : String) : GameState :=
  let s := if s.currentRound.isSome ∧ s.isGameActive then crashGameAux s else s
  let counter := s.roundCounter + 1
  let crashPoint := CryptoUtils.generateCrashPoint seed counter
  let hash := CryptoUtils.generateHash seed counter
  let roundId := "round_" ++ nowStr ++ "_" ++ toString counter
  let round : GameRound := ⟨roundId, counter, seed, hash, crashPoint, .waiting, [], 1⟩
  let s := saveRound (withRound { s with roundCounter := counter } round)
  { s with events := s.events ++ [.roundStarted roundId hash] }
where
  /-- `GameService.crashGame()` (also reached through
  `endCurrentRound`): deactivates the game, marks the round `crashed`
  with `maxMultiplier = crashPoint`, persists it, settles the lost bets,
  broadcasts `game_crashed` with the revealed seed, then marks the round
  `completed` and persists again. -/
  crashGameAux (s : GameState) : GameState :=
    if ¬s.isGameActive then s else
    match s.currentRound with
    | none => s
    | some r =>
      let r := { r with status := .crashed, maxMultiplier := r.crashPoint }
      let s := saveRound (withRound { s with isGameActive := false } r)
      let losers := r.bets.filter fun b => !b.cashedOut
      let players := losers.foldl (fun ps b =>
        match alistGet ps b.playerId with
        | some p => alistSet ps b.playerId
            { p with totalLosses := p.totalLosses + 1, totalBets := p.totalBets + 1 }
        | none => ps) s.players
      let s := { s with players := players,
                        events := s.events ++ [.gameCrashed r.roundId r.crashPoint r.seed] }
      saveRound (withRound s { r with status := .completed })

/-- `GameService.crashGame()` as a standalone transition. -/
def crashGame : GameState → GameState := startNewRound.crashGameAux

/-- `GameService.startMultiplier()`: marks the round `active`, persists
it, activates the game and resets the multiplier to 1.0. -/
def startMultiplier (s : GameState) : GameState :=
  match s.currentRound with
  | none => s
  | some r =>
    let s := saveRound (withRound s { r with status := .active })
    { s with isGameActive := true, currentMultiplier := 1 }

/-- `GameService.updateMultiplier()`.  The freshly computed multiplier
`1 + elapsed * growthFactor` is real-valued (its formula is analysed in
the C10 section) and enters here as the input `m`; the transition
updates the in-memory multiplier and `maxMultiplier` (no save), crashes
the game when `m ≥ crashPoint`, and otherwise broadcasts the tick with
the multiplier rounded to two decimals. -/
def updateMultiplier (s : GameState) (m : ℚ) : GameState :=
  if ¬s.isGameActive then s else
  match s.currentRound with
  | none => s
  | some r =>
    let s := { s with currentMultiplier := m }
    let r := if r.maxMultiplier < m then { r with maxMultiplier := m } else r
    let s := withRound s r
    if r.crashPoint ≤ m then crashGame s
    else { s with events := s.events ++ [.multiplierUpdate r.roundId (CryptoUtils.jsRound2 m)] }

/-- The price `placeBet` resolves: it constructs a *fresh*
`CryptoService` (empty cache), so the price always comes from the fetch
oracle or the fallback table. -/
def resolvedPrice (fetch : Option (ℚ × ℤ)) (c : Crypto) : ℚ :=
  (CryptoService.getCurrentPrice CryptoService.initState 0 fetch c.name).price

/-- `GameService.placeBet(playerId, usdAmount, cryptocurrency)`.  All
validation happens before any write: round in `waiting`, positive
amount, player exists, sufficient balance.  On success the stake is
debited, the bet appended to the round and persisted, a `bet`
transaction recorded and `bet_placed` broadcast. -/
def placeBet (s : GameState) (playerId : String) (usdAmount : ℚ) (c : Crypto)
    (fetch : Option (ℚ × ℤ)) : Except String Bet × GameState :=
  match s.currentRound with
  | none => (.error "No active round accepting bets", s)
  | some r =>
    if r.status ≠ .waiting then (.error "No active round accepting bets", s)
    else if usdAmount ≤ 0 then (.error "Bet amount must be positive", s)
    else
      let price := resolvedPrice fetch c
      let cryptoAmount := usdAmount / price
      match alistGet s.players playerId with
      | none => (.error "Player not found", s)
      | some player =>
        if player.wallet.get c < cryptoAmount then (.error "Insufficient balance", s)
        else
          let player :=
            { player with wallet := player.wallet.set c (player.wallet.get c - cryptoAmount) }
          let s := { s with players := alistSet s.players playerId player }
          let bet : Bet := ⟨playerId, usdAmount, cryptoAmount, c, price, false, none, none⟩
          let s := saveRound (withRound s { r with bets := r.bets ++ [bet] })
          let tx : Transaction := ⟨playerId, r.roundId, .bet, usdAmount, cryptoAmount, c, price, none⟩
          (.ok bet,
            { s with transactions := s.transactions ++ [tx],
                     events := s.events ++
                       [.betPlaced r.roundId playerId usdAmount cryptoAmount c] })

/-- `b.playerId === playerId && !b.cashedOut`: the predicate the
cash-out search and the in-place marking both use. -/
def Bet.isOpenOf (b : Bet) (playerId : String) : Bool :=
  b.playerId == playerId && !b.cashedOut

/-- The in-place mutation of the first open bet found for the player:
sets `cashedOut`, `cashoutMultiplier` and `cashoutAmount`. -/
def markFirstOpenBet (bets : List Bet) (playerId : String) (m v : ℚ) : List Bet :=
  match bets with
  | [] => []
  | b :: rest =>
    if b.isOpenOf playerId then
      { b with cashedOut := true, cashoutMultiplier := some m, cashoutAmount := some v } :: rest
    else b :: markFirstOpenBet rest playerId m v

/-- The object `cashOut` resolves with. -/
structure CashOutResult where
  multiplier : ℚ
  amount : ℚ
  cryptoAmount : ℚ
deriving DecidableEq, Repr

/-- `GameService.cashOut(playerId)`: requires an active game, finds the
player's open bet in the current round, marks it cashed out at the
current multiplier, persists the round, credits the wallet by
`cryptoAmount * multiplier`, bumps the win counters, records a
`cashout` transaction and broadcasts `player_cashed_out`.  (If the
player record is missing after the bet was found, the JS code throws a
`TypeError` that the catch rethrows; the round save has already
happened at that point.) -/
def cashOut (s : GameState) (playerId : String) : Except String CashOutResult × GameState :=
  match s.currentRound with
  | none => (.error "No active round or game not in progress", s)
  | some r =>
    if ¬s.isGameActive then (.error "No active round or game not in progress", s)
    else
      match r.bets.find? (fun b => b.isOpenOf playerId) with
      | none => (.error "No active bet found for player", s)
      | some bet =>
        let m := s.currentMultiplier
        let cashoutCryptoAmount := bet.cryptoAmount * m
        let cashoutUsdAmount := bet.usdAmount * m
        let s := saveRound (withRound s
          { r with bets := markFirstOpenBet r.bets playerId m cashoutCryptoAmount })
        match alistGet s.players playerId with
        | none => (.error "TypeError: player is null", s)
        | some player =>
          let player := { player with
            wallet := player.wallet.set bet.cryptocurrency
              (player.wallet.get bet.cryptocurrency + cashoutCryptoAmount),
            totalWins := player.totalWins + 1,
            totalBets := player.totalBets + 1 }
          let s := { s with players := alistSet s.players playerId player }
          let tx : Transaction := ⟨playerId, r.roundId, .cashout, cashoutUsdAmount,
            cashoutCryptoAmount, bet.cryptocurrency, bet.priceAtTime, some m⟩
          (.ok ⟨m, cashoutUsdAmount, cashoutCryptoAmount⟩,
            { s with transactions := s.transactions ++ [tx],
                     events := s.events ++
                       [.playerCashedOut r.roundId playerId m cashoutUsdAmount
                          bet.cryptocurrency] })

end GameService

/-! ### Claim C5: insufficient balance rejects the wager atomically -/

/-- C5: when the player's balance in the chosen asset is below the
computed stake-asset amount, `placeBet` fails with the
insufficient-balance error and the state is returned untouched — no
balance change, no wager appended, no transaction recorded, no event
emitted. -/
theorem c5_insufficient_balance_atomic (s : GameService.GameState)
    (r : GameService.GameRound) (playerId : String) (usd : ℚ) (c : Crypto)
    (fetch : Option (ℚ × ℤ)) (p : Player)
    (hr : s.currentRound = some r) (hw : r.status = .waiting) (hpos : ¬usd ≤ 0)
    (hp : alistGet s.players playerId = some p)
    (hbal : p.wallet.get c < usd / GameService.resolvedPrice fetch c) :
    GameService.placeBet s playerId usd c fetch = (.error "Insufficient balance", s) := by
  simp [GameService.placeBet, hr, hw, hpos, hp, hbal]

/-- A `waiting` round and a state with player bob holding zero bitcoin. -/
def c5Round : GameService.GameRound := ⟨"round_x_1", 1, "s1", "h1", 2, .waiting, [], 1⟩

def c5State : GameService.GameState :=
  ⟨some c5Round, 1, 1, false,
    [("bob", ⟨"bob", "bob", ⟨0, 0⟩, 0, 0, 0, true⟩)], [c5Round], [], []⟩

/-- C5 witness: bob with 0 bitcoin staking 10 fiat at price 50000 needs
0.0002 bitcoin; the wager is rejected and the state unchanged. -/
theorem c5_insufficient_balance_atomic_witness :
    (0 : ℚ) < 10 / GameService.resolvedPrice (some (50000, 0)) .bitcoin ∧
    GameService.placeBet c5State "bob" 10 .bitcoin (some (50000, 0)) =
      (.error "Insufficient balance", c5State) :=
  ⟨by decide,
    c5_insufficient_balance_atomic c5State c5Round "bob" 10 .bitcoin (some (50000, 0))
      ⟨"bob", "bob", ⟨0, 0⟩, 0, 0, 0, true⟩ (by decide) (by decide) (by decide)
      (by decide) (by decide)⟩

/-! ### Claim C6: cash-out payout computation -/

theorem markFirstOpenBet_spec (bets : List GameService.Bet) (pid : String) (m v : ℚ)
    (b : GameService.Bet)
    (h : bets.find? (fun x => x.isOpenOf pid) = some b) :
    ∃ l1 l2, bets = l1 ++ b :: l2 ∧
      GameService.markFirstOpenBet bets pid m v =
        l1 ++ { b with cashedOut := true, cashoutMultiplier := some m,
                       cashoutAmount := some v } :: l2 := by
  induction bets with
  | nil => simp at h
  | cons x rest ih =>
    by_cases hx : x.isOpenOf pid = true
    · rw [List.find?_cons] at h
      simp only [hx] at h
      obtain rfl : x = b := by simpa using h
      exact ⟨[], rest, by simp, by simp [GameService.markFirstOpenBet, hx]⟩
    · have hxf : x.isOpenOf pid = false := by simpa using hx
      rw [List.find?_cons] at h
      simp only [hxf] at h
      obtain ⟨l1, l2, hb, hm⟩ := ih h
      exact ⟨x :: l1, l2, by simp [hb],
        by simp [GameService.markFirstOpenBet, hx, hm]⟩

/-- C6: a successful cash-out at multiplier `m` of a wager with
stake-asset `sa` and stake-fiat `sf` pays `sa * m` in the asset and
`sf * m` in fiat; the wager is marked cashed out with
`cashoutMultiplier = m` and `cashoutAmount = sa * m`, the player's
balance in the wager's asset is credited by exactly `sa * m` with the
wins counter incremented by one, and a `cashout` transaction is
appended. -/
theorem c6_cashout_payout (s : GameService.GameState) (r : GameService.GameRound)
    (pid : String) (b : GameService.Bet) (p : Player)
    (hr : s.currentRound = some r) (hact : s.isGameActive = true)
    (hfind : r.bets.find? (fun x => x.isOpenOf pid) = some b)
    (hp : alistGet s.players pid = some p) :
    (GameService.cashOut s pid).1 =
      .ok ⟨s.currentMultiplier, b.usdAmount * s.currentMultiplier,
        b.cryptoAmount * s.currentMultiplier⟩ ∧
    (∃ l1 l2, r.bets = l1 ++ b :: l2 ∧
      (GameService.cashOut s pid).2.currentRound =
        some { r with bets :=
          l1 ++ { b with cashedOut := true,
                         cashoutMultiplier := some s.currentMultiplier,
                         cashoutAmount := some (b.cryptoAmount * s.currentMultiplier) } :: l2 }) ∧
    alistGet (GameService.cashOut s pid).2.players pid =
      some { p with
        wallet := p.wallet.set b.cryptocurrency
          (p.wallet.get b.cryptocurrency + b.cryptoAmount * s.currentMultiplier),
        totalWins := p.totalWins + 1,
        totalBets := p.totalBets + 1 } ∧
    (GameService.cashOut s pid).2.transactions =
      s.transactions ++
        [⟨pid, r.roundId, .cashout, b.usdAmount * s.currentMultiplier,
          b.cryptoAmount * s.currentMultiplier, b.cryptocurrency, b.priceAtTime,
          some s.currentMultiplier⟩] := by
  obtain ⟨l1, l2, hbets, hmark⟩ :=
    markFirstOpenBet_spec r.bets pid s.currentMultiplier
      (b.cryptoAmount * s.currentMultiplier) b hfind
  refine ⟨?_, ⟨l1, l2, hbets, ?_⟩, ?_, ?_⟩ <;>
    simp [GameService.cashOut, hr, hact, hfind, hp, hmark,
      GameService.saveRound, GameService.withRound, alistGet_alistSet_self]

def c6Bet : GameService.Bet := ⟨"alice", 100, 1/500, .bitcoin, 50000, false, none, none⟩

def c6Round : GameService.GameRound := ⟨"r6", 1, "s6", "h6", 3, .active, [c6Bet], 1⟩

def c6Player : Player := ⟨"alice", "alice", ⟨1, 0⟩, 1, 0, 0, true⟩

def c6State : GameService.GameState :=
  ⟨some c6Round, 1, 2, true, [("alice", c6Player)], [c6Round], [], []⟩

/-- C6 witness: alice's open wager of 100 fiat / 0.002 bitcoin cashed
out at multiplier 2 pays 0.004 bitcoin and 200 fiat, marks the wager,
credits her balance to 1.004, bumps her wins to 1 and appends the
cashout transaction. -/
theorem c6_cashout_payout_witness :
    (GameService.cashOut c6State "alice").1 = .ok ⟨2, 200, 1 / 250⟩ ∧
    (∃ l1 l2, c6Round.bets = l1 ++ c6Bet :: l2 ∧
      (GameService.cashOut c6State "alice").2.currentRound =
        some { c6Round with bets :=
          l1 ++ { c6Bet with cashedOut := true, cashoutMultiplier := some 2,
                             cashoutAmount := some (1 / 250) } :: l2 }) ∧
    alistGet (GameService.cashOut c6State "alice").2.players "alice" =
      some { c6Player with
        wallet := c6Player.wallet.set .bitcoin (1 + 1 / 250),
        totalWins := 1, totalBets := 2 } ∧
    (GameService.cashOut c6State "alice").2.transactions =
      [⟨"alice", "r6", .cashout, 200, 1 / 250, .bitcoin, 50000, some 2⟩] :=
  c6_cashout_payout c6State c6Round "alice" c6Bet c6Player
    (by decide) (by decide) (by decide) (by decide)

/-! ### Claim C2: no duplicate-wager check in `placeBet` -/

def c2Bet : GameService.Bet := ⟨"alice", 10, 1/5000, .bitcoin, 50000, false, none, none⟩

def c2Round : GameService.GameRound := ⟨"r2", 1, "s2", "h2", 2, .waiting, [c2Bet], 1⟩

def c2State : GameService.GameState :=
  ⟨some c2Round, 1, 1, false,
    [("alice", ⟨"alice", "alice", ⟨1, 0⟩, 0, 0, 0, true⟩)], [c2Round], [], []⟩

/-- C2, counterexample: alice already holds an open (not cashed out)
wager in the current `waiting` round, yet her second `placeBet` call
succeeds and a second wager of hers is appended — afterwards the round
holds two open wagers of alice. -/
theorem c2_second_wager_counterexample :
    (GameService.placeBet c2State "alice" 10 .bitcoin (some (50000, 0))).1 = .ok c2Bet ∧
    ((GameService.placeBet c2State "alice" 10 .bitcoin (some (50000, 0))).2.currentRound).map
      (fun r => r.bets) = some [c2Bet, c2Bet] ∧
    (c2Bet.isOpenOf "alice") = true :=
  ⟨by decide, by decide, by decide⟩

/-- C2, amended: `placeBet` performs no duplicate-wager check — even
when the player already has an open wager in the current round, a
second call in the betting window with sufficient balance succeeds and
appends a second wager for the same player. -/
theorem c2_second_wager_accepted (s : GameService.GameState) (r : GameService.GameRound)
    (pid : String) (usd : ℚ) (c : Crypto) (fetch : Option (ℚ × ℤ))
    (p : Player) (b : GameService.Bet)
    (hr : s.currentRound = some r) (hw : r.status = .waiting)
    (_hb : b ∈ r.bets) (_hbp : b.playerId = pid) (_hbopen : b.cashedOut = false)
    (hpos : ¬usd ≤ 0) (hp : alistGet s.players pid = some p)
    (hbal : ¬p.wallet.get c < usd / GameService.resolvedPrice fetch c) :
    (GameService.placeBet s pid usd c fetch).1 =
      .ok ⟨pid, usd, usd / GameService.resolvedPrice fetch c, c,
        GameService.resolvedPrice fetch c, false, none, none⟩ ∧
    ((GameService.placeBet s pid usd c fetch).2.currentRound).map
      (fun r' => r'.bets) =
      some (r.bets ++
        [⟨pid, usd, usd / GameService.resolvedPrice fetch c, c,
          GameService.resolvedPrice fetch c, false, none, none⟩]) := by
  constructor <;>
    simp [GameService.placeBet, hr, hw, hpos, hp, hbal,
      GameService.saveRound, GameService.withRound]

/-- C2 witness for the amended claim: alice with an open wager and
sufficient balance places a second 10-fiat wager; it is accepted and
appended after her first one. -/
theorem c2_second_wager_accepted_witness :
    c2Bet ∈ c2Round.bets ∧ c2Bet.cashedOut = false ∧
    (GameService.placeBet c2State "alice" 10 .bitcoin (some (50000, 0))).1 = .ok c2Bet ∧
    ((GameService.placeBet c2State "alice" 10 .bitcoin (some (50000, 0))).2.currentRound).map
      (fun r' => r'.bets) = some (c2Round.bets ++ [c2Bet]) :=
  ⟨by decide, by decide,
    (c2_second_wager_accepted c2State c2Round "alice" 10 .bitcoin (some (50000, 0))
      ⟨"alice", "alice", ⟨1, 0⟩, 0, 0, 0, true⟩ c2Bet (by decide) (by decide) (by decide)
      (by decide) (by decide) (by decide) (by decide) (by decide)).1,
    (c2_second_wager_accepted c2State c2Round "alice" 10 .bitcoin (some (50000, 0))
      ⟨"alice", "alice", ⟨1, 0⟩, 0, 0, 0, true⟩ c2Bet (by decide) (by decide) (by decide)
      (by decide) (by decide) (by decide) (by decide) (by decide)).2⟩

/-! ### Claim C8: commit/reveal consistency along every trace -/

namespace GameService

/-- The externally triggered transitions of the engine: the cron tick
that starts a round (with the fresh random seed and the `Date.now()`
string as inputs), the betting-window timeout, the 100 ms multiplier
tick (carrying the newly computed multiplier), and the two
player-driven calls. -/
inductive GEvent
  | startRound (seed nowStr : String)
  | startMult
  | tick (m : ℚ)
  | bet (playerId : String) (usd : ℚ) (c : Crypto) (fetch : Option (ℚ × ℤ))
  | cashout (playerId : String)
deriving DecidableEq

def step (s : GameState) : GEvent → GameState
  | .startRound seed nowStr => startNewRound s seed nowStr
  | .startMult => startMultiplier s
  | .tick m => updateMultiplier s m
  | .bet pid usd c fetch => (placeBet s pid usd c fetch).2
  | .cashout pid => (cashOut s pid).2

/-- A freshly constructed `GameService` over a given players collection. -/
def initialState (players0 : List (String × Player)) : GameState :=
  ⟨none, 0, 1, false, players0, [], [], []⟩

def run (players0 : List (String × Player)) (es : List GEvent) : GameState :=
  es.foldl step (initialState players0)

/-- Every round value the system holds: the live one and the persisted
collection. -/
def roundsOf (s : GameState) : List GameRound :=
  (match s.currentRound with | some r => [r] | none => []) ++ s.savedRounds

/-- Commit/reveal consistency of one round record: the published hash
is the hash of the revealed seed and round number, and the stored crash
point is the one derived from them. -/
def Consistent (r : GameRound) : Prop :=
  r.hash = CryptoUtils.generateHash r.seed r.roundNum ∧
  r.crashPoint = CryptoUtils.generateCrashPoint r.seed r.roundNum

def Inv (s : GameState) : Prop := ∀ r ∈ roundsOf s, Consistent r

theorem mem_upsertRound (l : List GameRound) (r x : GameRound)
    (hx : x ∈ upsertRound l r) : x = r ∨ x ∈ l := by
  induction l with
  | nil => simpa [upsertRound] using hx
  | cons a rest ih =>
    by_cases h : a.roundId = r.roundId
    · simp only [upsertRound, if_pos h] at hx
      rcases List.mem_cons.mp hx with rfl | hx
      · exact .inl rfl
      · exact .inr (List.mem_cons_of_mem _ hx)
    · simp only [upsertRound, if_neg h] at hx
      rcases List.mem_cons.mp hx with rfl | hx
      · exact .inr (List.mem_cons_self _ _)
      · rcases ih hx with h' | h'
        · exact .inl h'
        · exact .inr (List.mem_cons_of_mem _ h')

theorem inv_current (s : GameState) (r : GameRound) (hs : Inv s)
    (h : s.currentRound = some r) : Consistent r :=
  hs r (by simp [roundsOf, h])

theorem inv_saved (s : GameState) (x : GameRound) (hs : Inv s)
    (h : x ∈ s.savedRounds) : Consistent x :=
  hs x (by simp [roundsOf, h])

/-- Membership in the rounds of a committed state
`saveRound (withRound s r)` with possibly changed scalar fields means
being `r` or one of the previously saved rounds. -/
theorem roundsOf_commit (s : GameState) (r x : GameRound)
    (hx : x ∈ roundsOf (saveRound (withRound s r))) :
    x = r ∨ x ∈ s.savedRounds := by
  simp only [roundsOf, saveRound, withRound, List.mem_append] at hx
  rcases hx with hx | hx
  · left
    simpa using hx
  · exact mem_upsertRound _ _ _ hx

theorem inv_crashGame (s : GameState) (hs : Inv s) : Inv (crashGame s) := by
  by_cases hact : s.isGameActive = true
  · cases hcr : s.currentRound with
    | none =>
      unfold crashGame startNewRound.crashGameAux
      simpa [hact, hcr] using hs
    | some r =>
      have hr := inv_current s r hs hcr
      intro x hx
      unfold crashGame startNewRound.crashGameAux at hx
      simp only [hact, hcr, Bool.not_true, not_false_eq_true, if_neg] at hx
      rcases roundsOf_commit _ _ _ hx with rfl | hx
      · exact hr
      · rcases mem_upsertRound s.savedRounds _ x
            (by simpa [saveRound, withRound] using hx) with rfl | hx'
        · exact hr
        · exact inv_saved s x hs hx'
  · unfold crashGame startNewRound.crashGameAux
    simpa [hact] using hs

theorem inv_startMultiplier (s : GameState) (hs : Inv s) : Inv (startMultiplier s) := by
  cases hcr : s.currentRound with
  | none => unfold startMultiplier; simpa [hcr] using hs
  | some r =>
    have hr := inv_current s r hs hcr
    intro x hx
    unfold startMultiplier at hx
    simp only [hcr] at hx
    rcases roundsOf_commit _ _ _ hx with rfl | hx'
    · exact hr
    · exact inv_saved s x hs hx'

theorem inv_updateMultiplier (s : GameState) (m : ℚ) (hs : Inv s) :
    Inv (updateMultiplier s m) := by
  unfold updateMultiplier
  split
  · exact hs
  split
  · exact hs
  next r heq =>
    have hr := inv_current s r hs heq
    dsimp only
    have hinv1 : Inv (withRound { s with currentMultiplier := m }
        (if r.maxMultiplier < m then { r with maxMultiplier := m } else r)) := by
      intro x hx
      simp only [roundsOf, withRound, List.mem_append, List.mem_singleton] at hx
      rcases hx with rfl | hx
      · split <;> exact hr
      · exact inv_saved s x hs hx
    by_cases hcrash :
        (if r.maxMultiplier < m then { r with maxMultiplier := m } else r).crashPoint ≤ m
    · rw [if_pos hcrash]
      exact inv_crashGame _ hinv1
    · rw [if_neg hcrash]
      intro x hx
      exact hinv1 x hx

theorem inv_placeBet (s : GameState) (pid : String) (usd : ℚ) (c : Crypto)
    (fetch : Option (ℚ × ℤ)) (hs : Inv s) : Inv (placeBet s pid usd c fetch).2 := by
  unfold placeBet
  cases hcr : s.currentRound with
  | none => simpa [hcr] using hs
  | some r =>
    have hr := inv_current s r hs hcr
    by_cases hw : r.status ≠ RoundStatus.waiting
    · simpa [hcr, hw] using hs
    · by_cases hpos : usd ≤ 0
      · simpa [hcr, hw, hpos] using hs
      · cases hp : alistGet s.players pid with
        | none => simpa [hcr, hw, hpos, hp] using hs
        | some player =>
          by_cases hbal : player.wallet.get c < usd / resolvedPrice fetch c
          · simpa [hcr, hw, hpos, hp, hbal] using hs
          · intro x hx
            simp only [hcr, hw, hpos, hp, hbal, if_neg, not_false_eq_true,
              if_false, ite_false] at hx
            rcases roundsOf_commit _ _ _ hx with rfl | hx'
            · exact hr
            · exact inv_saved s x hs hx'

theorem inv_cashOut (s : GameState) (pid : String) (hs : Inv s) :
    Inv (cashOut s pid).2 := by
  unfold cashOut
  cases hcr : s.currentRound with
  | none => simpa [hcr] using hs
  | some r =>
    have hr := inv_current s r hs hcr
    by_cases hact : ¬s.isGameActive = true
    · simpa [hcr, hact] using hs
    · cases hfind : r.bets.find? (fun b => b.isOpenOf pid) with
      | none => simpa [hcr, hact, hfind] using hs
      | some bet =>
        have hcommit : ∀ x, x ∈ roundsOf (saveRound (withRound s
            { r with bets := (markFirstOpenBet r.bets pid s.currentMultiplier
                (bet.cryptoAmount * s.currentMultiplier)) })) → Consistent x := by
          intro x hx
          rcases roundsOf_commit _ _ _ hx with rfl | hx'
          · exact hr
          · exact inv_saved s x hs hx'
        intro x hx
        simp only [hcr, hact, hfind, not_false_eq_true, if_neg, ite_false] at hx
        cases hq : alistGet (saveRound (withRound s
            { r with bets := (markFirstOpenBet r.bets pid s.currentMultiplier
              (bet.cryptoAmount * s.currentMultiplier)) })).players pid with
        | none => rw [hq] at hx; exact hcommit x hx
        | some player => rw [hq] at hx; exact hcommit x hx

theorem inv_startNewRound (s : GameState) (seed nowStr : String) (hs : Inv s) :
    Inv (startNewRound s seed nowStr) := by
  have h0 : Inv (if s.currentRound.isSome ∧ s.isGameActive then
      startNewRound.crashGameAux s else s) := by
    split
    · exact inv_crashGame s hs
    · exact hs
  unfold startNewRound
  intro x hx
  rcases roundsOf_commit _ _ _ hx with rfl | hx'
  · exact ⟨rfl, rfl⟩
  · exact inv_saved _ x h0 hx'

theorem inv_step (s : GameState) (e : GEvent) (hs : Inv s) : Inv (step s e) := by
  cases e with
  | startRound seed nowStr => exact inv_startNewRound s seed nowStr hs
  | startMult => exact inv_startMultiplier s hs
  | tick m => exact inv_updateMultiplier s m hs
  | bet pid usd c fetch => exact inv_placeBet s pid usd c fetch hs
  | cashout pid => exact inv_cashOut s pid hs

theorem inv_run (players0 : List (String × Player)) (es : List GEvent) :
    Inv (run players0 es) := by
  suffices h : ∀ s, Inv s → Inv (es.foldl step s) from
    h _ (by intro x hx; simp [roundsOf, initialState] at hx)
  induction es with
  | nil => intro s hs; exact hs
  | cons e rest ih => intro s hs; exact ih _ (inv_step s e hs)

end GameService

/-- C8: along every event trace of the round engine, every round value
the system holds — live or persisted — carries the hash of its seed and
round number as published at round start, and the crash point derived
from them; the binding fixed at creation is never broken by any later
transition. -/
theorem c8_commit_reveal_consistency (players0 : List (String × Player))
    (es : List GameService.GEvent) (r : GameService.GameRound)
    (hr : r ∈ GameService.roundsOf (GameService.run players0 es)) :
    r.hash = CryptoUtils.generateHash r.seed r.roundNum ∧
    r.crashPoint = CryptoUtils.generateCrashPoint r.seed r.roundNum :=
  GameService.inv_run players0 es r hr

/-- The round created by the trace `[startRound "a" "x"]`. -/
def c8Round : GameService.GameRound :=
  ⟨"round_x_1", 1, "a", CryptoUtils.generateHash "a" 1,
    CryptoUtils.generateCrashPoint "a" 1, .waiting, [], 1⟩

/-- C8 witness: after one `startRound` with seed "a", the held round is
exactly `c8Round` and satisfies the commit/reveal binding. -/
theorem c8_commit_reveal_consistency_witness :
    c8Round ∈ GameService.roundsOf (GameService.run [] [.startRound "a" "x"]) ∧
    c8Round.hash = CryptoUtils.generateHash c8Round.seed c8Round.roundNum ∧
    c8Round.crashPoint = CryptoUtils.generateCrashPoint c8Round.seed c8Round.roundNum :=
  ⟨by decide, c8_commit_reveal_consistency [] [.startRound "a" "x"] c8Round (by decide)⟩
